import Mathlib

/-!
Verification of the per-guild actor core of the TomBot repository
(src/discord_bot/guilds.rs) together with the failure-reply discipline of the
pay command (src/discord_bot/commands/pay.rs).

The asynchronous Rust code is shallowly embedded as follows.

* The spawned run loop of `GuildHandler::start` is split into its two phases:
  the command-registration retry loop (modelled by `regTrace`, driven by an
  oracle listing the outcome of each `set_application_commands` attempt) and
  the `select!` service loop (modelled by `loopGo`, driven by a schedule of
  select choices: dequeue the next mailbox message, or observe completion of
  one in-flight spawned task).  Every run emits a trace of `TraceItem`s
  recording registration attempts, backoff sleeps, dequeues, spawns, the
  `internal_rx.close()` call, and task awaits.
* `GuildHandler::close` and `GuildHandler::start` are modelled as functions of
  the handler's `handle` field plus an environment recording whether the
  mailbox send succeeds and whether the run loop finishes within the timeout.
* `handle_admin_interaction` is modelled as a function from the interaction
  and an environment (the outcome of the dispatched command, and whether the
  platform accepts the response) to the list of externally visible actions;
  the Rust `unreachable!()` catch-all arm is modelled as `none`.
-/

namespace Serenity

/-- Embedding of serenity's `Interaction` enum as matched by guilds.rs: the
variants `Ping`, `ApplicationCommand`, `MessageComponent`, `Autocomplete` and
`ModalSubmit`, with payloads abstracted to tags. -/
inductive Interaction
  | Ping (payload : Nat)
  | ApplicationCommand (payload : Nat)
  | MessageComponent (payload : Nat)
  | Autocomplete (payload : Nat)
  | ModalSubmit (payload : Nat)
deriving DecidableEq

/-- Embedding of `matches!(*interaction, Interaction::Ping(_))` from
guilds.rs line 193. -/
def Interaction.isPing : Interaction → Bool
  | .Ping _ => true
  | _ => false

end Serenity

/-- `DiscordEvent` is declared in src/discord_bot/manager.rs, which is not
among the provided sources; guilds.rs matches on `Shutdown`, `Interaction`
(boxed) and a catch-all arm.  Modelled from the spec: "InboundEvent — a tagged
variant: {ShutdownRequest, InteractionEvent(payload), ...}"; the remaining
variants are collapsed into one `other` constructor carrying a tag. -/
inductive DiscordEvent
  | Shutdown
  | Interaction (i : Serenity.Interaction)
  | other (tag : Nat)
deriving DecidableEq

/-- `CommandResponse` is declared in src/discord_bot/commands/util.rs, which
is not among the provided sources.  Modelled from the spec: "HandlerOutcome —
tagged variant: {NoResponse, Reply(content), ComplexReply(structured-content),
Failure(reason, severity)}", restricted to the three variants actually
constructed in pay.rs (`NoResponse`, `ComplexSuccess`, `BasicFailure`). -/
inductive CommandResponse
  | NoResponse
  | ComplexSuccess (content : String)
  | BasicFailure (detail : String)
deriving DecidableEq

/-- Reply as seen by the end user: either a generic failure notice carrying no
payload, or a substantive reply derived from a success outcome. -/
inductive UserReply
  | generic
  | substantive (content : Option String)
deriving DecidableEq

/-- `CommandResponse::generate_response` lives in the missing util.rs.
Modelled from the spec: "the user always receives either a substantive reply
or a generic 'something went wrong' reply; they never receive raw internal
error detail" — so a failure outcome renders as the payload-free generic
reply. -/
def CommandResponse.generate_response : CommandResponse → UserReply
  | .NoResponse => .substantive none
  | .ComplexSuccess c => .substantive (some c)
  | .BasicFailure _ => .generic

/-- `CommandResponse::write_to_log` lives in the missing util.rs.  Modelled
from the spec: the error variant carries "an internal log-worthy detail",
which is what gets written to the log. -/
def CommandResponse.write_to_log : CommandResponse → List String
  | .BasicFailure detail => [detail]
  | _ => []

/-- Environment of one `handle_admin_interaction` invocation: the result of
the dispatched `command(..)` call, whether `create_interaction_response`
succeeds, the result of `autocomplete(..)`, and whether
`create_autocomplete_response` succeeds. -/
structure AdminEnv where
  cmdResult : Except CommandResponse CommandResponse
  sendOk : Bool
  acResult : Except CommandResponse Nat
  acSendOk : Bool

/-- Externally visible actions performed by `handle_admin_interaction`. -/
inductive AdminAction
  | logTrace (s : String)
  | logError (s : String)
  | writeToLog (r : CommandResponse)
  | sendResponse (u : UserReply)
  | sendAutocomplete (builder : Option Nat)
deriving DecidableEq

/-- Embedding of `handle_admin_interaction` (guilds.rs lines 24-84): matches
over the interaction kind and produces the list of performed actions; the
`_ => unreachable!()` arm (reached only by `Ping`) is modelled as `none`. -/
def handle_admin_interaction (i : Serenity.Interaction) (env : AdminEnv) :
    Option (List AdminAction) :=
  match i with
  | .ApplicationCommand _ =>
    some (AdminAction.logTrace "Received application command" ::
      match env.cmdResult with
      | .ok response =>
        [AdminAction.logTrace "Sending response",
         AdminAction.sendResponse response.generate_response] ++
          (if env.sendOk then [] else [AdminAction.logError "Unable to send response"])
      | .error response =>
        [AdminAction.writeToLog response,
         AdminAction.sendResponse response.generate_response] ++
          (if env.sendOk then [] else [AdminAction.logError "Unable to send response"]))
  | .MessageComponent _ =>
    some [AdminAction.logError "Received message component"]
  | .Autocomplete _ =>
    some (match env.acResult with
      | .ok response =>
        [AdminAction.sendAutocomplete (some response)] ++
          (if env.acSendOk then []
           else [AdminAction.logError "Unable to send autocomplete response"])
      | .error response =>
        [AdminAction.writeToLog response, AdminAction.sendAutocomplete none] ++
          (if env.acSendOk then []
           else [AdminAction.logError "Unable to send autocomplete response"]))
  | .ModalSubmit _ =>
    some [AdminAction.logError "Received modal submit"]
  | _ => none

/-- Observable steps of the spawned run loop of `GuildHandler::start`. -/
inductive TraceItem
  | regAttempt (ok : Bool)
  | sleep (secs : Nat)
  | dequeue (e : DiscordEvent)
  | spawn (i : Serenity.Interaction)
  | closeMailbox
  | awaitTask (id : Nat)
  | logUnexpected
deriving DecidableEq

/-- One branch choice of the `select!` in the service loop: either the next
mailbox message is ready, or one in-flight spawned task (given by its id)
completes. -/
inductive SelectChoice
  | recv
  | complete (j : Nat)
deriving DecidableEq

/-- Result of running the service loop: the emitted trace, the ids of
spawned-but-not-yet-awaited tasks, the next fresh task id, and whether the
loop exited through the `Shutdown` break. -/
structure LoopOut where
  trace : List TraceItem
  inFlight : List Nat
  nextId : Nat
  broke : Bool
deriving DecidableEq

/-- Helper prepending one emitted trace item to a loop result, leaving the
other fields unchanged. -/
def withItem (t : TraceItem) (o : LoopOut) : LoopOut :=
  ⟨t :: o.trace, o.inFlight, o.nextId, o.broke⟩

/-- Embedding of the `select!` service loop of `GuildHandler::start`
(guilds.rs lines 183-213), driven by a schedule of select choices.  A `recv`
choice dequeues the head mailbox message: `Shutdown` closes the mailbox and
breaks; a `Ping` interaction is dequeued and ignored; any other interaction
spawns a detached `handle_admin_interaction` task tracked in the in-flight
set; any other event is logged as unexpected and discarded.  A `complete j`
choice models `task_handles.next()` observing completion of in-flight task
`j`; a choice whose branch is not ready is a stutter step. -/
def loopGo : List DiscordEvent → List Nat → Nat → List SelectChoice → LoopOut
  | _, fl, nid, [] => ⟨[], fl, nid, false⟩
  | mb, fl, nid, .recv :: cs =>
    match mb with
    | [] => loopGo [] fl nid cs
    | .Shutdown :: _ =>
      ⟨[TraceItem.dequeue DiscordEvent.Shutdown, TraceItem.closeMailbox], fl, nid, true⟩
    | .Interaction i :: rest =>
      if i.isPing then
        withItem (TraceItem.dequeue (DiscordEvent.Interaction i)) (loopGo rest fl nid cs)
      else
        withItem (TraceItem.dequeue (DiscordEvent.Interaction i))
          (withItem (TraceItem.spawn i) (loopGo rest (fl ++ [nid]) (nid + 1) cs))
    | .other t :: rest =>
      withItem (TraceItem.dequeue (DiscordEvent.other t))
        (withItem TraceItem.logUnexpected (loopGo rest fl nid cs))
  | mb, fl, nid, .complete j :: cs =>
    if j ∈ fl then
      withItem (TraceItem.awaitTask j) (loopGo mb (fl.erase j) nid cs)
    else loopGo mb fl nid cs

/-- The service loop followed by the final drain (guilds.rs lines 215-219):
when the loop exited through the `Shutdown` break, every remaining in-flight
task is awaited — with no timeout — until the set is empty. -/
def loopRun (mb : List DiscordEvent) (sched : List SelectChoice) : LoopOut :=
  let o := loopGo mb [] 0 sched
  if o.broke then
    ⟨o.trace ++ o.inFlight.map TraceItem.awaitTask, [], o.nextId, true⟩
  else o

/-- Embedding of the registration retry loop of `GuildHandler::start`
(guilds.rs lines 169-178), driven by an oracle listing the outcome of each
`set_application_commands` attempt: each failed attempt is logged and
followed by a fixed 10-second sleep; the loop exits on the first success.
The boolean records whether a success was reached within the oracle. -/
def regTrace : List Bool → List TraceItem × Bool
  | [] => ([], false)
  | ok :: rest =>
    if ok then ([TraceItem.regAttempt true], true)
    else
      let r := regTrace rest
      (TraceItem.regAttempt false :: TraceItem.sleep 10 :: r.1, r.2)

/-- Trace of `k` failed registration attempts, each followed by the fixed
10-second backoff sleep. -/
def regFailBlock : Nat → List TraceItem
  | 0 => []
  | k + 1 => TraceItem.regAttempt false :: TraceItem.sleep 10 :: regFailBlock k

/-- Full trace of the spawned run loop: the registration phase, then — only
if registration succeeded — the service loop and final drain. -/
def actorTrace (reg : List Bool) (mb : List DiscordEvent) (sched : List SelectChoice) :
    List TraceItem :=
  let r := regTrace reg
  if r.2 then r.1 ++ (loopRun mb sched).trace else r.1

/-- The mailbox messages dequeued along a trace, in order. -/
def dequeuedEvents (tr : List TraceItem) : List DiscordEvent :=
  tr.filterMap fun t =>
    match t with
    | .dequeue e => some e
    | _ => none

/-- The task completions observed along a trace, in order. -/
def awaitedTasks (tr : List TraceItem) : List Nat :=
  tr.filterMap fun t =>
    match t with
    | .awaitTask j => some j
    | _ => none

/-- The interactions for which a handler task was spawned along a trace, in
order. -/
def spawnedOf (tr : List TraceItem) : List Serenity.Interaction :=
  tr.filterMap fun t =>
    match t with
    | .spawn i => some i
    | _ => none

/-- Environment of one `GuildHandler::close` call: whether the mailbox send
succeeds (the receiver may already be closed), and whether the run loop
finishes within the supplied timeout. -/
structure CloseEnv where
  sendOk : Bool
  finishesInTime : Bool
deriving DecidableEq

/-- Observable outcome of one `GuildHandler::close` call. -/
structure CloseOut where
  ok : Bool
  enqueued : List DiscordEvent
  waited : Bool
  aborted : Bool
  warned : Bool
  handleAfter : Option Nat
deriving DecidableEq

/-- Embedding of `GuildHandler::close` (guilds.rs lines 137-151).  With no
task handle present nothing happens and `Ok(())` is returned.  With a handle
present, `DiscordEvent::Shutdown` is sent through the handler's own mailbox;
on send failure the `?` operator returns the error immediately, leaving the
handle in place.  Otherwise the call races the timeout against run-loop
completion, aborting and logging a warning when the timeout elapses first,
and finally clears the handle. -/
def GuildHandler.close (handle : Option Nat) (env : CloseEnv) : CloseOut :=
  match handle with
  | none => ⟨true, [], false, false, false, none⟩
  | some h =>
    if env.sendOk then
      if env.finishesInTime then
        ⟨true, [DiscordEvent.Shutdown], true, false, false, none⟩
      else
        ⟨true, [DiscordEvent.Shutdown], true, true, true, none⟩
    else
      ⟨false, [], false, false, false, some h⟩

/-- Outcome of a `GuildHandler::start` call: either a fresh run-loop task was
spawned, or the duplicate-start error path (`eprintln!("Already monitoring
guild")`) was taken. -/
inductive StartAction
  | spawned
  | alreadyMonitoring
deriving DecidableEq

/-- Embedding of the handle management of `GuildHandler::start` (guilds.rs
lines 155-156 and 223-226): with no handle present a fresh run-loop task is
spawned and stored; with a handle already present the duplicate start is
rejected with the already-monitoring error and the existing handle is kept. -/
def GuildHandler.start (handle : Option Nat) (newId : Nat) : Option Nat × StartAction :=
  match handle with
  | some h => (some h, StartAction.alreadyMonitoring)
  | none => (some newId, StartAction.spawned)

/-- Embedding of serenity's `Attachment` as used by pay.rs: only the `url`
field is consumed. -/
structure Attachment where
  url : String
deriving DecidableEq

/-- Embedding of the JSON-ish `option.value` of a command option, as probed
by `as_str` / `as_i64` in pay.rs. -/
inductive OptValue
  | str (s : String)
  | int (i : Int)
  | otherValue
deriving DecidableEq

/-- Embedding of `serde_json::Value::as_str`. -/
def OptValue.as_str : OptValue → Option String
  | .str s => some s
  | _ => none

/-- Embedding of `serde_json::Value::as_i64`. -/
def OptValue.as_i64 : OptValue → Option Int
  | .int i => some i
  | _ => none

/-- Embedding of serenity's `CommandDataOptionValue` as matched by pay.rs:
either a resolved attachment or anything else. -/
inductive Resolved
  | attachment (a : Attachment)
  | otherResolved
deriving DecidableEq

/-- Embedding of one `CommandDataOption` of the interaction, with its name,
optional raw value, and optional resolved value. -/
structure CmdOption where
  name : String
  value : Option OptValue
  resolved : Option Resolved
deriving DecidableEq

/-- `FLATMATE_NAMES` is imported by pay.rs from src/state.rs but its
definition is not among the provided sources.  Modelled from the spec and the
adjacent `FLATMATES` constant of src/state.rs: the list of the flatmates'
lowercase names. -/
def FLATMATE_NAMES : List String := ["sam", "jo", "bex", "william"]

/-- Embedding of the option-extraction loop of
`PayCommand::handle_application_command` (pay.rs lines 82-105), threading the
`purpose`, `receipt` and `amount` accumulators.  `none` models a panic of one
of the `.unwrap()` calls; `some (.error r)` models the early `return Err`. -/
def payParseOptions :
    List CmdOption → Option String → Option Attachment → List (String × Int) →
    Option (Except CommandResponse (Option String × Option Attachment × List (String × Int)))
  | [], purpose, receipt, amount => some (.ok (purpose, receipt, amount))
  | o :: rest, purpose, receipt, amount =>
    if o.name = "purpose" then
      match o.value with
      | none => none
      | some v =>
        match v.as_str with
        | none => none
        | some s => payParseOptions rest (some s) receipt amount
    else if o.name = "receipt" then
      match o.resolved with
      | some (.attachment a) => payParseOptions rest purpose (some a) amount
      | _ => some (.error (.BasicFailure "Failed to parse receipt as an attachment"))
    else
      match o.value with
      | none => none
      | some v =>
        match v.as_i64 with
        | none => none
        | some i => payParseOptions rest purpose receipt (amount ++ [(o.name, i)])

/-- Embedding of the fill-in loop of pay.rs lines 108-112: every flatmate
name not already present in the amount list is appended with amount 0. -/
def fillFlatmates (amount : List (String × Int)) : List (String × Int) :=
  FLATMATE_NAMES.foldl
    (fun acc name => if acc.any (fun p => p.1 = name) then acc else acc ++ [(name, 0)])
    amount

/-- Environment of one `PayCommand::handle_application_command` invocation:
whether `reqwest::Url::parse` accepts a given url string, and the outcome of
`create_interaction_response` (carrying the platform error detail on
failure). -/
structure PayEnv where
  urlParseOk : String → Bool
  sendResult : Except String Unit

/-- Embedding of `PayCommand::handle_application_command` (pay.rs lines
69-183).  The outer `Option` models the `.unwrap()` panics of the option
loop; otherwise the function either returns one of pay.rs's `BasicFailure`
errors or `Ok(NoResponse)` after a successful send.  The embed/button payload
built inside the successful `create_interaction_response` call is
platform-adapter data abstracted into the `sendResult` oracle. -/
def PayCommand.handle_application_command (options : List CmdOption) (env : PayEnv) :
    Option (Except CommandResponse CommandResponse) :=
  match payParseOptions options none none [] with
  | none => none
  | some (.error r) => some (.error r)
  | some (.ok (purpose, receipt, amount0)) =>
    let amount := fillFlatmates amount0
    if purpose.isNone || receipt.isNone || amount.isEmpty then
      some (.error (.BasicFailure "Failed to initialize command"))
    else
      match purpose, receipt with
      | some _, some receipt =>
        if !env.urlParseOk receipt.url then
          some (.error (.BasicFailure "Failed to parse receipt as a valid url"))
        else
          match env.sendResult with
          | .error e =>
            some (.error (.BasicFailure ("Failed to create interaction response: " ++ e)))
          | .ok _ => some (.ok .NoResponse)
      | _, _ => none

/-- The reply the user ends up seeing for one pay application command, namely
`generate_response` of whichever `CommandResponse` the handler returned (the
run loop renders the `Ok` and `Err` variants identically, guilds.rs lines
30-57); `none` models a handler panic. -/
def payUserReply (options : List CmdOption) (env : PayEnv) : Option UserReply :=
  match PayCommand.handle_application_command options env with
  | none => none
  | some (.ok r) => some r.generate_response
  | some (.error r) => some r.generate_response

/-- Environment of one `PayCommand::interaction` invocation: whether the
interaction carries a member, the invoking user's name, and the outcome of
`edit_original_interaction_response`. -/
structure PayInteractionEnv where
  memberPresent : Bool
  userName : String
  editResult : Except String Unit

/-- Embedding of `PayCommand::interaction` (pay.rs lines 196-236): a missing
member or a failed edit yields a `BasicFailure`; otherwise the ephemeral
"user paid!" reply is returned as a `ComplexSuccess`. -/
def PayCommand.interaction (env : PayInteractionEnv) : Except CommandResponse CommandResponse :=
  if !env.memberPresent then
    .error (.BasicFailure "Failed to get member")
  else
    match env.editResult with
    | .error e => .error (.BasicFailure ("Failed to edit interaction response: " ++ e))
    | .ok _ => .ok (.ComplexSuccess (env.userName ++ " paid!"))

/-- No registration attempt is ever emitted by the service loop. -/
theorem loopGo_no_regAttempt (sched : List SelectChoice) :
    ∀ (mb : List DiscordEvent) (fl : List Nat) (nid : Nat) (b : Bool),
      TraceItem.regAttempt b ∉ (loopGo mb fl nid sched).trace := by
  induction sched with
  | nil => intro mb fl nid b; simp [loopGo]
  | cons c cs ih =>
    intro mb fl nid b
    cases c with
    | recv =>
      cases mb with
      | nil => simpa [loopGo] using ih [] fl nid b
      | cons e rest =>
        cases e with
        | Shutdown => simp [loopGo]
        | Interaction i =>
          by_cases hp : i.isPing
          · simpa [loopGo, hp, withItem] using ih rest fl nid b
          · simpa [loopGo, hp, withItem] using ih rest (fl ++ [nid]) (nid + 1) b
        | other t => simpa [loopGo, withItem] using ih rest fl nid b
    | complete j =>
      by_cases hj : j ∈ fl
      · simpa [loopGo, hj, withItem] using ih mb (fl.erase j) nid b
      · simpa [loopGo, hj] using ih mb fl nid b

/-- A service-loop run that set the `broke` flag exited through the
`Shutdown` arm: its trace ends with the shutdown dequeue followed by the
`internal_rx.close()` call. -/
theorem loopGo_broke_trace (sched : List SelectChoice) :
    ∀ (mb : List DiscordEvent) (fl : List Nat) (nid : Nat),
      (loopGo mb fl nid sched).broke = true →
      ∃ pre, (loopGo mb fl nid sched).trace
        = pre ++ [TraceItem.dequeue DiscordEvent.Shutdown, TraceItem.closeMailbox] := by
  induction sched with
  | nil => intro mb fl nid h; simp [loopGo] at h
  | cons c cs ih =>
    intro mb fl nid h
    cases c with
    | recv =>
      cases mb with
      | nil =>
        simp only [loopGo] at h ⊢
        exact ih [] fl nid h
      | cons e rest =>
        cases e with
        | Shutdown =>
          refine ⟨[], ?_⟩
          simp [loopGo]
        | Interaction i =>
          by_cases hp : i.isPing
          · simp only [loopGo, hp, if_pos, withItem] at h ⊢
            obtain ⟨pre, hpre⟩ := ih rest fl nid h
            exact ⟨TraceItem.dequeue (DiscordEvent.Interaction i) :: pre, by simp [hpre]⟩
          · simp only [loopGo, hp, if_neg, Bool.false_eq_true, not_false_iff, withItem] at h ⊢
            obtain ⟨pre, hpre⟩ := ih rest (fl ++ [nid]) (nid + 1) h
            exact ⟨TraceItem.dequeue (DiscordEvent.Interaction i) :: TraceItem.spawn i :: pre,
              by simp [hpre]⟩
        | other t =>
          simp only [loopGo, withItem] at h ⊢
          obtain ⟨pre, hpre⟩ := ih rest fl nid h
          exact ⟨TraceItem.dequeue (DiscordEvent.other t) :: TraceItem.logUnexpected :: pre,
            by simp [hpre]⟩
    | complete j =>
      by_cases hj : j ∈ fl
      · simp only [loopGo, hj, if_pos, withItem] at h ⊢
        obtain ⟨pre, hpre⟩ := ih mb (fl.erase j) nid h
        exact ⟨TraceItem.awaitTask j :: pre, by simp [hpre]⟩
      · simp only [loopGo, hj, if_neg, not_false_iff] at h ⊢
        exact ih mb fl nid h

/-- The events dequeued by the service loop form a front segment of the
mailbox, in arrival order, for every schedule of select choices. -/
theorem loopGo_fifo (sched : List SelectChoice) :
    ∀ (mb : List DiscordEvent) (fl : List Nat) (nid : Nat),
      ∃ rest, mb = dequeuedEvents (loopGo mb fl nid sched).trace ++ rest := by
  induction sched with
  | nil => intro mb fl nid; exact ⟨mb, by simp [loopGo, dequeuedEvents]⟩
  | cons c cs ih =>
    intro mb fl nid
    cases c with
    | recv =>
      cases mb with
      | nil =>
        simp only [loopGo]
        obtain ⟨rest, hrest⟩ := ih [] fl nid
        exact ⟨rest, by simpa using hrest⟩
      | cons e rest =>
        cases e with
        | Shutdown => exact ⟨rest, by simp [loopGo, dequeuedEvents]⟩
        | Interaction i =>
          by_cases hp : i.isPing
          · obtain ⟨r, hr⟩ := ih rest fl nid
            exact ⟨r, by simp [loopGo, hp, withItem, dequeuedEvents] at hr ⊢; exact hr⟩
          · obtain ⟨r, hr⟩ := ih rest (fl ++ [nid]) (nid + 1)
            exact ⟨r, by simp [loopGo, hp, withItem, dequeuedEvents] at hr ⊢; exact hr⟩
        | other t =>
          obtain ⟨r, hr⟩ := ih rest fl nid
          exact ⟨r, by simp [loopGo, withItem, dequeuedEvents] at hr ⊢; exact hr⟩
    | complete j =>
      by_cases hj : j ∈ fl
      · obtain ⟨r, hr⟩ := ih mb (fl.erase j) nid
        exact ⟨r, by simp [loopGo, hj, withItem, dequeuedEvents] at hr ⊢; exact hr⟩
      · obtain ⟨r, hr⟩ := ih mb fl nid
        exact ⟨r, by simp [loopGo, hj] at hr ⊢; exact hr⟩

/-- Every interaction for which the service loop spawns a handler task is a
non-ping interaction. -/
theorem loopGo_spawn_not_ping (sched : List SelectChoice) :
    ∀ (mb : List DiscordEvent) (fl : List Nat) (nid : Nat) (i : Serenity.Interaction),
      TraceItem.spawn i ∈ (loopGo mb fl nid sched).trace → i.isPing = false := by
  induction sched with
  | nil => intro mb fl nid i h; simp [loopGo] at h
  | cons c cs ih =>
    intro mb fl nid i h
    cases c with
    | recv =>
      cases mb with
      | nil =>
        simp only [loopGo] at h
        exact ih [] fl nid i h
      | cons e rest =>
        cases e with
        | Shutdown => simp [loopGo] at h
        | Interaction i' =>
          by_cases hp : i'.isPing
          · simp only [loopGo, hp, if_pos, withItem, List.mem_cons] at h
            rcases h with h | h
            · exact absurd h (by simp)
            · exact ih rest fl nid i h
          · simp only [loopGo, hp, if_neg, Bool.false_eq_true, not_false_iff, withItem,
              List.mem_cons] at h
            rcases h with h | h | h
            · exact absurd h (by simp)
            · cases h; simpa using hp
            · exact ih rest (fl ++ [nid]) (nid + 1) i h
        | other t =>
          simp only [loopGo, withItem, List.mem_cons] at h
          rcases h with h | h | h
          · exact absurd h (by simp)
          · exact absurd h (by simp)
          · exact ih rest fl nid i h
    | complete j =>
      by_cases hj : j ∈ fl
      · simp only [loopGo, hj, if_pos, withItem, List.mem_cons] at h
        rcases h with h | h
        · exact absurd h (by simp)
        · exact ih mb (fl.erase j) nid i h
      · simp only [loopGo, hj, if_neg, not_false_iff] at h
        exact ih mb fl nid i h

/-- Unfolding of the registration retry loop on an oracle whose first `k`
attempts fail and whose next attempt succeeds: the trace is `k` logged
failures each followed by the fixed 10-second sleep, then the single
successful attempt, and the loop reports success. -/
theorem regTrace_replicate (k : Nat) (rest : List Bool) :
    regTrace (List.replicate k false ++ true :: rest)
      = (regFailBlock k ++ [TraceItem.regAttempt true], true) := by
  induction k with
  | zero => simp [regTrace, regFailBlock]
  | succ n ihn => simp [List.replicate_succ, regTrace, regFailBlock, ihn]

/-- Every item of the failed-registration block is a failed attempt or the
fixed 10-second backoff sleep. -/
theorem regFailBlock_items (k : Nat) :
    ∀ t ∈ regFailBlock k, t = TraceItem.regAttempt false ∨ t = TraceItem.sleep 10 := by
  induction k with
  | zero => simp [regFailBlock]
  | succ n ihn =>
    intro t ht
    simp only [regFailBlock, List.mem_cons] at ht
    rcases ht with h | h | h
    · exact Or.inl h
    · exact Or.inr h
    · exact ihn t h

/-- No registration attempt appears in the service-loop-plus-drain trace. -/
theorem loopRun_no_regAttempt (mb : List DiscordEvent) (sched : List SelectChoice) (b : Bool) :
    TraceItem.regAttempt b ∉ (loopRun mb sched).trace := by
  by_cases hb : (loopGo mb [] 0 sched).broke = true
  · simp only [loopRun, hb, if_true]
    intro hmem
    rcases List.mem_append.mp hmem with h | h
    · exact loopGo_no_regAttempt sched mb [] 0 b h
    · rcases List.mem_map.mp h with ⟨x, _, hx⟩
      simp at hx
  · simp only [loopRun, hb, if_false]
    exact loopGo_no_regAttempt sched mb [] 0 b

/-- C1: an actor run whose registration oracle fails `k` times before its
first success produces the failure block (each failed bulk-registration
attempt followed by the fixed 10-second sleep), then exactly one successful
registration attempt over the whole trace, and only then the service loop;
no mailbox event is dequeued inside the registration phase. -/
theorem registration_retries_then_single_success (k : Nat) (restOut : List Bool)
    (mb : List DiscordEvent) (sched : List SelectChoice) :
    actorTrace (List.replicate k false ++ true :: restOut) mb sched
      = regFailBlock k ++ TraceItem.regAttempt true :: (loopRun mb sched).trace ∧
    (actorTrace (List.replicate k false ++ true :: restOut) mb sched).count
        (TraceItem.regAttempt true) = 1 ∧
    (∀ t ∈ regFailBlock k, t = TraceItem.regAttempt false ∨ t = TraceItem.sleep 10) ∧
    (∀ e : DiscordEvent, TraceItem.dequeue e ∉ regFailBlock k) := by
  have htr : actorTrace (List.replicate k false ++ true :: restOut) mb sched
      = regFailBlock k ++ TraceItem.regAttempt true :: (loopRun mb sched).trace := by
    simp [actorTrace, regTrace_replicate k restOut]
  refine ⟨htr, ?_, regFailBlock_items k, ?_⟩
  · rw [htr]
    have h0 : (regFailBlock k).count (TraceItem.regAttempt true) = 0 :=
      List.count_eq_zero.mpr (fun hmem => by
        rcases regFailBlock_items k _ hmem with h | h <;> simp at h)
    have h1 : ((loopRun mb sched).trace).count (TraceItem.regAttempt true) = 0 :=
      List.count_eq_zero.mpr (loopRun_no_regAttempt mb sched true)
    simp [List.count_append, List.count_cons, h0, h1]
  · intro e he
    rcases regFailBlock_items k _ he with h | h <;> simp at h

/-- C1 witness at two failures before success. -/
theorem registration_retries_then_single_success_witness :
    (TraceItem.sleep 10 ∈ regFailBlock 2) ∧
    (TraceItem.sleep 10 = TraceItem.regAttempt false ∨ TraceItem.sleep 10 = TraceItem.sleep 10) ∧
    actorTrace [false, false, true] [] []
      = regFailBlock 2 ++ TraceItem.regAttempt true :: (loopRun [] []).trace :=
  ⟨by decide,
   (registration_retries_then_single_success 2 [] [] []).2.2.1 (TraceItem.sleep 10) (by decide),
   (registration_retries_then_single_success 2 [] [] []).1⟩

/-- C2: whenever the service loop exits through the `Shutdown` break, the
mailbox is closed and then every task still in the in-flight set is awaited
— with no timeout — until the set is empty, before the run loop terminates. -/
theorem shutdown_closes_and_drains (mb : List DiscordEvent) (sched : List SelectChoice)
    (h : (loopGo mb [] 0 sched).broke = true) :
    (∃ pre, (loopRun mb sched).trace
        = pre ++ TraceItem.closeMailbox ::
            ((loopGo mb [] 0 sched).inFlight.map TraceItem.awaitTask)) ∧
    (∀ id ∈ (loopGo mb [] 0 sched).inFlight,
      TraceItem.awaitTask id ∈ (loopRun mb sched).trace) ∧
    (loopRun mb sched).inFlight = [] := by
  obtain ⟨pre, hpre⟩ := loopGo_broke_trace sched mb [] 0 h
  have hrun : (loopRun mb sched).trace
      = (loopGo mb [] 0 sched).trace
          ++ (loopGo mb [] 0 sched).inFlight.map TraceItem.awaitTask := by
    simp [loopRun, h]
  have hfl : (loopRun mb sched).inFlight = [] := by
    simp [loopRun, h]
  refine ⟨⟨pre ++ [TraceItem.dequeue DiscordEvent.Shutdown], ?_⟩, ?_, hfl⟩
  · rw [hrun, hpre]
    simp
  · intro id hid
    rw [hrun]
    exact List.mem_append.mpr (Or.inr (List.mem_map_of_mem _ hid))

/-- C2 witness: one non-ping interaction is dequeued and spawned, then a
shutdown arrives; the spawned task (id 0) is still in flight at the break and
is awaited by the final drain. -/
theorem shutdown_closes_and_drains_witness :
    ((loopGo [DiscordEvent.Interaction (Serenity.Interaction.ApplicationCommand 7),
        DiscordEvent.Shutdown] [] 0 [SelectChoice.recv, SelectChoice.recv]).broke = true) ∧
    ((∃ pre, (loopRun [DiscordEvent.Interaction (Serenity.Interaction.ApplicationCommand 7),
          DiscordEvent.Shutdown] [SelectChoice.recv, SelectChoice.recv]).trace
        = pre ++ TraceItem.closeMailbox ::
            ((loopGo [DiscordEvent.Interaction (Serenity.Interaction.ApplicationCommand 7),
                DiscordEvent.Shutdown] [] 0
                [SelectChoice.recv, SelectChoice.recv]).inFlight.map TraceItem.awaitTask)) ∧
      (∀ id ∈ (loopGo [DiscordEvent.Interaction (Serenity.Interaction.ApplicationCommand 7),
          DiscordEvent.Shutdown] [] 0 [SelectChoice.recv, SelectChoice.recv]).inFlight,
        TraceItem.awaitTask id ∈
          (loopRun [DiscordEvent.Interaction (Serenity.Interaction.ApplicationCommand 7),
            DiscordEvent.Shutdown] [SelectChoice.recv, SelectChoice.recv]).trace) ∧
      (loopRun [DiscordEvent.Interaction (Serenity.Interaction.ApplicationCommand 7),
        DiscordEvent.Shutdown] [SelectChoice.recv, SelectChoice.recv]).inFlight = []) :=
  ⟨by decide,
   shutdown_closes_and_drains
     [DiscordEvent.Interaction (Serenity.Interaction.ApplicationCommand 7), DiscordEvent.Shutdown]
     [SelectChoice.recv, SelectChoice.recv] (by decide)⟩

/-- C4: calling `start()` while the task handle is already present takes the
already-monitoring error path and leaves the existing handle untouched, so
only the one original run-loop instance remains. -/
theorem duplicate_start_rejected (h newId : Nat) :
    GuildHandler.start (some h) newId = (some h, StartAction.alreadyMonitoring) := rfl

/-- C5: a dequeued `Ping` interaction is discarded: the loop result is
exactly the dequeue of that event followed by the loop on the remaining
mailbox with unchanged in-flight set, task counter and break status — no
handler task is spawned (hence no outbound reply is produced) and the run
loop continues with the next mailbox message. -/
theorem ping_interaction_ignored (p : Nat) (rest : List DiscordEvent) (fl : List Nat)
    (nid : Nat) (cs : List SelectChoice) :
    loopGo (DiscordEvent.Interaction (Serenity.Interaction.Ping p) :: rest) fl nid
        (SelectChoice.recv :: cs)
      = withItem (TraceItem.dequeue (DiscordEvent.Interaction (Serenity.Interaction.Ping p)))
          (loopGo rest fl nid cs) ∧
    spawnedOf (loopGo (DiscordEvent.Interaction (Serenity.Interaction.Ping p) :: rest) fl nid
        (SelectChoice.recv :: cs)).trace
      = spawnedOf (loopGo rest fl nid cs).trace := by
  constructor
  · simp [loopGo, Serenity.Interaction.isPing]
  · simp [loopGo, Serenity.Interaction.isPing, withItem, spawnedOf]

/-- C7: for every mailbox content and every schedule of select choices —
including schedules that complete in-flight tasks in any order between
dequeues — the dequeued events form a front segment of the mailbox in strict
arrival order; the concrete part exhibits a run whose two handler tasks
complete in the reverse of arrival order while the dequeue order is still
FIFO. -/
theorem mailbox_fifo_despite_completion_order :
    (∀ (mb : List DiscordEvent) (fl : List Nat) (nid : Nat) (sched : List SelectChoice),
      ∃ rest, mb = dequeuedEvents (loopGo mb fl nid sched).trace ++ rest) ∧
    dequeuedEvents (loopGo
        [DiscordEvent.Interaction (Serenity.Interaction.ApplicationCommand 0),
         DiscordEvent.Interaction (Serenity.Interaction.ApplicationCommand 1)] [] 0
        [SelectChoice.recv, SelectChoice.recv, SelectChoice.complete 1,
         SelectChoice.complete 0]).trace
      = [DiscordEvent.Interaction (Serenity.Interaction.ApplicationCommand 0),
         DiscordEvent.Interaction (Serenity.Interaction.ApplicationCommand 1)] ∧
    awaitedTasks (loopGo
        [DiscordEvent.Interaction (Serenity.Interaction.ApplicationCommand 0),
         DiscordEvent.Interaction (Serenity.Interaction.ApplicationCommand 1)] [] 0
        [SelectChoice.recv, SelectChoice.recv, SelectChoice.complete 1,
         SelectChoice.complete 0]).trace
      = [1, 0] := by
  refine ⟨fun mb fl nid sched => loopGo_fifo sched mb fl nid, by decide, by decide⟩

/-- C6: a dispatched command that returns the failure variant never
terminates the run loop: inside the detached spawned task the failure is
written to the log and converted into the user-visible reply (the handler
returns normally), while the loop itself — whose behaviour does not depend on
any handler outcome — dequeues the interaction, spawns the detached task and
continues servicing the rest of the mailbox. -/
theorem handler_failure_isolated (c : Nat) (env : AdminEnv) (resp : CommandResponse)
    (rest : List DiscordEvent) (fl : List Nat) (nid : Nat) (cs : List SelectChoice)
    (h : env.cmdResult = Except.error resp) :
    (handle_admin_interaction (Serenity.Interaction.ApplicationCommand c) env).isSome = true ∧
    AdminAction.writeToLog resp ∈
      (handle_admin_interaction (Serenity.Interaction.ApplicationCommand c) env).getD [] ∧
    AdminAction.sendResponse resp.generate_response ∈
      (handle_admin_interaction (Serenity.Interaction.ApplicationCommand c) env).getD [] ∧
    loopGo (DiscordEvent.Interaction (Serenity.Interaction.ApplicationCommand c) :: rest) fl nid
        (SelectChoice.recv :: cs)
      = withItem
          (TraceItem.dequeue (DiscordEvent.Interaction (Serenity.Interaction.ApplicationCommand c)))
          (withItem (TraceItem.spawn (Serenity.Interaction.ApplicationCommand c))
            (loopGo rest (fl ++ [nid]) (nid + 1) cs)) := by
  refine ⟨by simp [handle_admin_interaction], ?_, ?_, ?_⟩
  · simp [handle_admin_interaction, h]
  · simp [handle_admin_interaction, h]
  · simp [loopGo, Serenity.Interaction.isPing]

/-- C6 witness with a concrete failing command outcome. -/
theorem handler_failure_isolated_witness :
    ((⟨Except.error (CommandResponse.BasicFailure "boom"), true, Except.ok 0, true⟩ :
        AdminEnv).cmdResult = Except.error (CommandResponse.BasicFailure "boom")) ∧
    ((handle_admin_interaction (Serenity.Interaction.ApplicationCommand 1)
        ⟨Except.error (CommandResponse.BasicFailure "boom"), true, Except.ok 0, true⟩).isSome
          = true ∧
      AdminAction.writeToLog (CommandResponse.BasicFailure "boom") ∈
        (handle_admin_interaction (Serenity.Interaction.ApplicationCommand 1)
          ⟨Except.error (CommandResponse.BasicFailure "boom"), true, Except.ok 0, true⟩).getD [] ∧
      AdminAction.sendResponse (CommandResponse.BasicFailure "boom").generate_response ∈
        (handle_admin_interaction (Serenity.Interaction.ApplicationCommand 1)
          ⟨Except.error (CommandResponse.BasicFailure "boom"), true, Except.ok 0, true⟩).getD [] ∧
      loopGo [DiscordEvent.Interaction (Serenity.Interaction.ApplicationCommand 1)] [] 0
          [SelectChoice.recv]
        = withItem
            (TraceItem.dequeue (DiscordEvent.Interaction (Serenity.Interaction.ApplicationCommand 1)))
            (withItem (TraceItem.spawn (Serenity.Interaction.ApplicationCommand 1))
              (loopGo [] ([] ++ [0]) (0 + 1) []))) :=
  ⟨rfl,
   handler_failure_isolated 1
     ⟨Except.error (CommandResponse.BasicFailure "boom"), true, Except.ok 0, true⟩
     (CommandResponse.BasicFailure "boom") [] [] 0 [] rfl⟩

/-- C9: every interaction the service loop spawns a handler task for is
non-ping, and on every non-ping interaction `handle_admin_interaction`
returns through one of its four real arms — the `unreachable!()` catch-all
(modelled as `none`) is never executed. -/
theorem spawned_never_hits_unreachable (mb : List DiscordEvent) (fl : List Nat) (nid : Nat)
    (sched : List SelectChoice) (i : Serenity.Interaction) (env : AdminEnv)
    (h : TraceItem.spawn i ∈ (loopGo mb fl nid sched).trace) :
    (handle_admin_interaction i env).isSome = true := by
  have hping := loopGo_spawn_not_ping sched mb fl nid i h
  cases i with
  | Ping p => simp [Serenity.Interaction.isPing] at hping
  | ApplicationCommand c => simp [handle_admin_interaction]
  | MessageComponent c => simp [handle_admin_interaction]
  | Autocomplete c => simp [handle_admin_interaction]
  | ModalSubmit c => simp [handle_admin_interaction]

/-- C9 witness: a spawned application command never reaches the catch-all. -/
theorem spawned_never_hits_unreachable_witness :
    (TraceItem.spawn (Serenity.Interaction.ApplicationCommand 5) ∈
      (loopGo [DiscordEvent.Interaction (Serenity.Interaction.ApplicationCommand 5)] [] 0
        [SelectChoice.recv]).trace) ∧
    (handle_admin_interaction (Serenity.Interaction.ApplicationCommand 5)
        ⟨Except.ok CommandResponse.NoResponse, true, Except.ok 0, true⟩).isSome = true :=
  ⟨by decide,
   spawned_never_hits_unreachable
     [DiscordEvent.Interaction (Serenity.Interaction.ApplicationCommand 5)] [] 0
     [SelectChoice.recv] (Serenity.Interaction.ApplicationCommand 5)
     ⟨Except.ok CommandResponse.NoResponse, true, Except.ok 0, true⟩ (by decide)⟩

/-- C3 counterexample: a `close` call on a started handler whose mailbox
receiver is already closed (the `Shutdown` send fails): the `?` operator
returns the error before the handle-clearing line, so no `Shutdown` is
enqueued and the task handle is not cleared. -/
theorem close_send_failure_counterexample :
    (GuildHandler.close (some 0) ⟨false, true⟩).enqueued = [] ∧
    (GuildHandler.close (some 0) ⟨false, true⟩).handleAfter = some 0 ∧
    (GuildHandler.close (some 0) ⟨false, true⟩).ok = false := by decide

/-- C3 (amended): for every `close(timeout)` call on a started handler whose
`Shutdown` send succeeds, the `Shutdown` message goes through the handler's
own mailbox; if the run loop completes within the timeout no abort occurs,
and if the timeout elapses first the run-loop task is forcibly aborted with a
forced-abort warning logged; in either of those cases the handler ends with
its task handle cleared. -/
theorem close_shutdown_protocol (h : Nat) (env : CloseEnv) (hs : env.sendOk = true) :
    (GuildHandler.close (some h) env).enqueued = [DiscordEvent.Shutdown] ∧
    (GuildHandler.close (some h) env).handleAfter = none ∧
    (GuildHandler.close (some h) env).ok = true ∧
    (env.finishesInTime = true →
      (GuildHandler.close (some h) env).aborted = false ∧
      (GuildHandler.close (some h) env).warned = false) ∧
    (env.finishesInTime = false →
      (GuildHandler.close (some h) env).aborted = true ∧
      (GuildHandler.close (some h) env).warned = true) := by
  obtain ⟨so, ft⟩ := env
  simp only at hs
  subst hs
  cases ft <;> simp [GuildHandler.close]

/-- C3 witness: the timeout-elapsed branch at a concrete handler. -/
theorem close_shutdown_protocol_witness :
    ((⟨true, false⟩ : CloseEnv).sendOk = true) ∧
    ((GuildHandler.close (some 3) ⟨true, false⟩).enqueued = [DiscordEvent.Shutdown] ∧
      (GuildHandler.close (some 3) ⟨true, false⟩).handleAfter = none ∧
      (GuildHandler.close (some 3) ⟨true, false⟩).ok = true ∧
      ((⟨true, false⟩ : CloseEnv).finishesInTime = true →
        (GuildHandler.close (some 3) ⟨true, false⟩).aborted = false ∧
        (GuildHandler.close (some 3) ⟨true, false⟩).warned = false) ∧
      ((⟨true, false⟩ : CloseEnv).finishesInTime = false →
        (GuildHandler.close (some 3) ⟨true, false⟩).aborted = true ∧
        (GuildHandler.close (some 3) ⟨true, false⟩).warned = true)) :=
  ⟨rfl, close_shutdown_protocol 3 ⟨true, false⟩ rfl⟩

/-- C10 counterexample: a `close` call that returns the send error leaves the
task handle in place, so "after any close call returns, the handle is
cleared" fails on the code. -/
theorem close_err_keeps_handle_counterexample :
    (GuildHandler.close (some 1) ⟨false, false⟩).handleAfter = some 1 ∧
    (GuildHandler.close (some 1) ⟨false, false⟩).handleAfter ≠ none := by decide

/-- C10 (amended): `close` on a handler with no task handle returns `Ok(())`
without enqueueing any `Shutdown` and without waiting; after any `close` call
that returns `Ok(())` the handle is cleared; and a `start()` on a handler
with no task handle spawns a fresh run loop. -/
theorem close_unstarted_noop_and_ok_clears :
    (∀ env : CloseEnv,
      GuildHandler.close none env
        = { ok := true, enqueued := [], waited := false, aborted := false, warned := false,
            handleAfter := none }) ∧
    (∀ (handle : Option Nat) (env : CloseEnv),
      (GuildHandler.close handle env).ok = true →
      (GuildHandler.close handle env).handleAfter = none) ∧
    (∀ newId : Nat, GuildHandler.start none newId = (some newId, StartAction.spawned)) := by
  refine ⟨fun env => rfl, ?_, fun newId => rfl⟩
  intro handle env hok
  match handle with
  | none => rfl
  | some h =>
    by_cases hs : env.sendOk = true
    · by_cases ft : env.finishesInTime = true <;>
        simp [GuildHandler.close, hs, ft] at hok ⊢
    · simp [GuildHandler.close, hs] at hok

/-- C10 witness: a successful close on a started handler clears the handle. -/
theorem close_unstarted_noop_and_ok_clears_witness :
    ((GuildHandler.close (some 2) ⟨true, true⟩).ok = true) ∧
    (GuildHandler.close (some 2) ⟨true, true⟩).handleAfter = none :=
  ⟨by decide, close_unstarted_noop_and_ok_clears.2.1 (some 2) ⟨true, true⟩ (by decide)⟩

/-- The only early error of the option-extraction loop is the
attachment-parse `BasicFailure`. -/
theorem payParseOptions_error (options : List CmdOption) :
    ∀ (p : Option String) (r : Option Attachment) (a : List (String × Int))
      (x : CommandResponse),
      payParseOptions options p r a = some (Except.error x) →
      x = CommandResponse.BasicFailure "Failed to parse receipt as an attachment" := by
  induction options with
  | nil => intro p r a x h; simp [payParseOptions] at h
  | cons o rest ih =>
    intro p r a x h
    by_cases h1 : o.name = "purpose"
    · simp only [payParseOptions, h1, if_true] at h
      cases hv : o.value with
      | none => rw [hv] at h; simp at h
      | some v =>
        rw [hv] at h
        cases v with
        | str s =>
          simp only [OptValue.as_str] at h
          exact ih _ _ _ _ h
        | int i => simp [OptValue.as_str] at h
        | otherValue => simp [OptValue.as_str] at h
    · by_cases h2 : o.name = "receipt"
      · simp only [payParseOptions, h1, h2, if_false, if_true] at h
        cases hv : o.resolved with
        | none => rw [hv] at h; simp at h; exact h.symm
        | some res =>
          rw [hv] at h
          cases res with
          | attachment a' => exact ih _ _ _ _ h
          | otherResolved => simp at h; exact h.symm
      · simp only [payParseOptions, h1, h2, if_false] at h
        cases hv : o.value with
        | none => rw [hv] at h; simp at h
        | some v =>
          rw [hv] at h
          cases v with
          | str s => simp [OptValue.as_i64] at h
          | int i =>
            simp only [OptValue.as_i64] at h
            exact ih _ _ _ _ h
          | otherValue => simp [OptValue.as_i64] at h

/-- C8: every failure outcome of the pay command — from the application
command handler or the button-press handler — is a `BasicFailure` whose
user-visible rendering is the payload-free generic failure reply, while the
internal detail goes only to the log; consequently the reply the user sees is
independent of the raw platform error detail (two runs differing only in
that detail produce identical user replies). -/
theorem pay_failure_reply_hides_detail :
    (∀ (options : List CmdOption) (env : PayEnv) (r : CommandResponse),
      PayCommand.handle_application_command options env = some (Except.error r) →
      ∃ m, r = CommandResponse.BasicFailure m ∧
        r.generate_response = UserReply.generic ∧
        r.write_to_log = [m]) ∧
    (∀ (env : PayInteractionEnv) (r : CommandResponse),
      PayCommand.interaction env = Except.error r →
      ∃ m, r = CommandResponse.BasicFailure m ∧
        r.generate_response = UserReply.generic ∧
        r.write_to_log = [m]) ∧
    (∀ (options : List CmdOption) (u : String → Bool) (e1 e2 : String),
      payUserReply options ⟨u, Except.error e1⟩ = payUserReply options ⟨u, Except.error e2⟩) := by
  refine ⟨?_, ?_, ?_⟩
  · intro options env r h
    unfold PayCommand.handle_application_command at h
    cases hp : payParseOptions options none none [] with
    | none => rw [hp] at h; simp at h
    | some res =>
      rw [hp] at h
      cases res with
      | error x =>
        simp only [Option.some.injEq, Except.error.injEq] at h
        subst h
        have hx := payParseOptions_error options none none [] x hp
        subst hx
        exact ⟨_, rfl, rfl, rfl⟩
      | ok tup =>
        obtain ⟨purpose, receipt, amount0⟩ := tup
        simp only at h
        by_cases hc :
            (purpose.isNone || receipt.isNone || (fillFlatmates amount0).isEmpty) = true
        · rw [if_pos hc] at h
          simp only [Option.some.injEq, Except.error.injEq] at h
          subst h
          exact ⟨_, rfl, rfl, rfl⟩
        · rw [if_neg hc] at h
          cases purpose with
          | none => simp at hc
          | some p =>
            cases receipt with
            | none => simp at hc
            | some rc =>
              simp only at h
              by_cases hu : env.urlParseOk rc.url = true
              · rw [hu] at h
                simp only [Bool.not_true, Bool.false_eq_true, if_false] at h
                cases hsend : env.sendResult with
                | error e =>
                  rw [hsend] at h
                  simp only [Option.some.injEq, Except.error.injEq] at h
                  subst h
                  exact ⟨_, rfl, rfl, rfl⟩
                | ok u => rw [hsend] at h; simp at h
              · rw [Bool.not_eq_true] at hu
                rw [hu] at h
                simp only [Bool.not_false, if_true, Option.some.injEq,
                  Except.error.injEq] at h
                subst h
                exact ⟨_, rfl, rfl, rfl⟩
  · intro env r h
    unfold PayCommand.interaction at h
    by_cases hm : env.memberPresent = true
    · rw [hm] at h
      simp only [Bool.not_true, Bool.false_eq_true, if_false] at h
      cases he : env.editResult with
      | error e =>
        rw [he] at h
        simp only [Except.error.injEq] at h
        subst h
        exact ⟨_, rfl, rfl, rfl⟩
      | ok u => rw [he] at h; simp at h
    · rw [Bool.not_eq_true] at hm
      rw [hm] at h
      simp only [Bool.not_false, if_true, Except.error.injEq] at h
      subst h
      exact ⟨_, rfl, rfl, rfl⟩
  · intro options u e1 e2
    unfold payUserReply PayCommand.handle_application_command
    cases hp : payParseOptions options none none [] with
    | none => simp
    | some res =>
      cases res with
      | error x => simp
      | ok tup =>
        obtain ⟨purpose, receipt, amount0⟩ := tup
        by_cases hc :
            (purpose.isNone || receipt.isNone || (fillFlatmates amount0).isEmpty) = true
        · simp [hc]
        · rw [Bool.not_eq_true] at hc
          cases purpose with
          | none => simp at hc
          | some p =>
            cases receipt with
            | none => simp at hc
            | some rc =>
              have hne : ¬ fillFlatmates amount0 = [] := by
                intro hnil
                rw [hnil] at hc
                simp at hc
              by_cases hu : u rc.url = true
              · simp [hc, hu, hne, CommandResponse.generate_response]
              · rw [Bool.not_eq_true] at hu
                simp [hc, hu, hne, CommandResponse.generate_response]

/-- C8 witness: a pay invocation with no options fails initialization; the
failure is a `BasicFailure` rendered as the generic reply with the detail
going to the log. -/
theorem pay_failure_reply_hides_detail_witness :
    (PayCommand.handle_application_command []
        ⟨fun _ => true, Except.ok ()⟩
      = some (Except.error (CommandResponse.BasicFailure "Failed to initialize command"))) ∧
    ∃ m, CommandResponse.BasicFailure "Failed to initialize command"
        = CommandResponse.BasicFailure m ∧
      (CommandResponse.BasicFailure "Failed to initialize command").generate_response
        = UserReply.generic ∧
      (CommandResponse.BasicFailure "Failed to initialize command").write_to_log = [m] :=
  ⟨rfl,
   pay_failure_reply_hides_detail.1 [] ⟨fun _ => true, Except.ok ()⟩
     (CommandResponse.BasicFailure "Failed to initialize command") rfl⟩
